import Mathlib

/-!
Shallow embedding of the Duck Machine DM2020W CPU simulator (`src/cpu.py`).

The CPU owns 16 registers (register 0 is a zero register, register 15 the
program counter), a condition flag, a halted flag, and a connection to a
memory.  `CPU.step` performs one fetch-decode-execute cycle; `CPU.run`
iterates `step` until the halted flag is set.

The collaborator modules `instr_format.py`, `memory.py` and `register.py`
are not part of the source tree; their behaviour is modelled from the
specification (each such definition carries a doc comment starting with
`Modelled from the spec:`).  Python exceptions that escape `step` leave the
mutations already applied to the CPU object in place, so `step` returns
`Except (String × CPU) CPU`: an error carries the CPU state at the moment
the exception was raised.
-/

/-- Modelled from the spec: the operation-code enumeration lives in
`instr_format.py`, which is absent from `src/`.  The spec lists the codes
as "one of {ADD, SUB, MUL, DIV, LOAD, STORE, HALT, ...}" — an open
enumeration — and requires that codes missing from the ALU dispatch table
be rejected; codes beyond the seven named ones are represented by
`OTHER`. -/
inductive OpCode where
  | ADD
  | SUB
  | MUL
  | DIV
  | LOAD
  | STORE
  | HALT
  | OTHER (code : Nat)
  deriving DecidableEq, Repr

/-- Modelled from the spec: the condition-flag enumeration lives in
`instr_format.py`, which is absent from `src/`.  The spec names the flags
Z (zero), M (minus), P (positive), V (overflow/error) and ALWAYS, and says
a flag value doubles as a bitmask gating conditional execution, with
ALWAYS the always-execute mask; the flags are therefore given distinct
bits and ALWAYS the union of all of them. -/
inductive CondFlag where
  | M
  | Z
  | P
  | V
  | ALWAYS
  deriving DecidableEq, Repr

/-- Modelled from the spec: the integer bitmask carried by each condition
flag (`CondFlag.value` in Python). -/
def CondFlag.value : CondFlag → Nat
  | .M => 1
  | .Z => 2
  | .P => 4
  | .V => 8
  | .ALWAYS => 15

/-- Modelled from the spec: the decoded-instruction record produced by
`instr_format.decode`, which is absent from `src/`.  Fields per the spec:
operation code, condition mask, target register index, two source register
indices, signed offset.  The condition mask is kept as its integer value
(Python stores a flag object and the CPU reads `instr.cond.value`). -/
structure Instruction where
  op : OpCode
  cond : Nat
  reg_target : Fin 16
  reg_src1 : Fin 16
  reg_src2 : Fin 16
  offset : Int
  deriving DecidableEq, Repr

/-- Modelled from the spec: numeric encoding of the operation codes.  The
actual numbering in `instr_format.py` is unknown; none of the verified
properties depend on it. -/
def opOfNat : Nat → OpCode
  | 0 => .HALT
  | 1 => .LOAD
  | 2 => .STORE
  | 3 => .ADD
  | 4 => .SUB
  | 5 => .MUL
  | 6 => .DIV
  | k => .OTHER k

/-- Modelled from the spec: `instr_format.decode`, absent from `src/`, is a
pure function from a raw word to an `Instruction`.  The exact bit layout is
not specified; a concrete layout (op 5 bits, cond 4, target 4, src1 4,
src2 4, offset 10 bits two's complement) is fixed here — the verified
properties are independent of the layout. -/
def decode (w : Int) : Instruction :=
  let n := (w.emod (2 ^ 31)).toNat
  { op := opOfNat (n / 2 ^ 26 % 32)
    cond := n / 2 ^ 22 % 16
    reg_target := ⟨n / 2 ^ 18 % 16, by omega⟩
    reg_src1 := ⟨n / 2 ^ 14 % 16, by omega⟩
    reg_src2 := ⟨n / 2 ^ 10 % 16, by omega⟩
    offset := if n % 2 ^ 10 < 2 ^ 9 then (n % 2 ^ 10 : Int) else (n % 2 ^ 10 : Int) - 2 ^ 10 }

/-- Modelled from the spec: the inverse encoder, used to build concrete
instruction words for test states (round-trip companion of `decode`). -/
def encode (opn cond target src1 src2 : Nat) (offset : Int) : Int :=
  ((opn % 32) * 2 ^ 26 + (cond % 16) * 2 ^ 22 + (target % 16) * 2 ^ 18 +
    (src1 % 16) * 2 ^ 14 + (src2 % 16) * 2 ^ 10 + (offset.emod (2 ^ 10)).toNat : Nat)

/-- Modelled from the spec: `memory.py` is absent from `src/`.  The memory
is a flat array-like store of words addressed by non-negative index. -/
structure Memory where
  data : List Int
  deriving DecidableEq, Repr

/-- Modelled from the spec: `Memory.get(address)` returns the word at the
address and fails with an out-of-range error if the address is negative or
beyond the configured size. -/
def Memory.get (m : Memory) (addr : Int) : Except String Int :=
  if h : 0 ≤ addr ∧ addr.toNat < m.data.length then .ok (m.data.get ⟨addr.toNat, h.2⟩)
  else .error "memory address out of range"

/-- Modelled from the spec: `Memory.put(value, address)` stores the word at
the address, with the same bounds contract as `Memory.get` (the spec gives
the argument order as `put(value: int, address: int)`). -/
def Memory.put (m : Memory) (value : Int) (addr : Int) : Except String Memory :=
  if 0 ≤ addr ∧ addr.toNat < m.data.length then .ok ⟨m.data.set addr.toNat value⟩
  else .error "memory address out of range"

/-- The register file: 16 word registers (`CPU.registers` in the source). -/
abbrev RegFile := Fin 16 → Int

/-- Modelled from the spec: `register.py` is absent from `src/`.  Reading a
register returns its stored value, except that register 0 is the zero
register whose reads always return 0. -/
def regGet (regs : RegFile) (i : Fin 16) : Int :=
  if i = 0 then 0 else regs i

/-- Modelled from the spec: writing a register overwrites its stored value,
except that register 0 is the zero register, whose writes are accepted but
have no effect. -/
def regPut (regs : RegFile) (i : Fin 16) (v : Int) : RegFile :=
  if i = 0 then regs else Function.update regs i v

/-- The ALU dispatch table (`ALU.ALU_OPS` in the source): a closed map from
operation code to a two-argument integer function.  The inner `Option Int`
models Python's `ZeroDivisionError`: `x // y` raises exactly when `y = 0`
(Python `//` is floor division, `Int.fdiv`).  Codes missing from the table
map to `none` (a lookup raises `KeyError`). -/
def ALU_OPS : OpCode → Option (Int → Int → Option Int)
  | .ADD => some fun x y => some (x + y)
  | .SUB => some fun x y => some (x - y)
  | .MUL => some fun x y => some (x * y)
  | .DIV => some fun x y => if y = 0 then none else some (x.fdiv y)
  | .LOAD => some fun x y => some (x + y)
  | .STORE => some fun x y => some (x + y)
  | .HALT => some fun _ _ => some 0
  | .OTHER _ => none

/-- `ALU.exec` from the source: look the operation up in `ALU_OPS` (a
missing code raises `KeyError`, not caught by the handler), apply it, and
derive the flag from the sign of the result; a `ZeroDivisionError` is
caught and converted to result 0 with flag V. -/
def ALU.exec (op : OpCode) (in1 in2 : Int) : Except String (Int × CondFlag) :=
  match ALU_OPS op with
  | none => .error "unsupported operation"
  | some f =>
    match f in1 in2 with
    | none => .ok (0, .V)
    | some result =>
      if result = 0 then .ok (result, .Z)
      else if result < 0 then .ok (result, .M)
      else .ok (result, .P)

/-- The CPU state (`CPU.__init__` in the source): a connection to memory,
16 registers (register 0 the zero register, register 15 the program
counter, aliased as `self.pc`), the current condition flag, and the halted
flag. -/
structure CPU where
  memory : Memory
  registers : RegFile
  condition : CondFlag
  halted : Bool

/-- `CPU.step` from the source: one fetch-decode-execute cycle.  The
`notify_all` call reports the decoded instruction to observers and has no
effect on CPU state, so it is not modelled.  An error result carries the
CPU state at the moment the Python exception would be raised (mutations
already applied to `self` persist). -/
def CPU.step (s : CPU) : Except (String × CPU) CPU :=
  match s.memory.get (regGet s.registers 15) with
  | .error e => .error (e, s)
  | .ok result =>
    let instr := decode result
    if instr.cond &&& s.condition.value > 0 then
      let left := regGet s.registers instr.reg_src1
      let right := regGet s.registers instr.reg_src2 + instr.offset
      let prog := regGet s.registers 15
      let s1 : CPU := { s with registers := regPut s.registers 15 (prog + 1) }
      match ALU.exec instr.op left right with
      | .error e => .error (e, s1)
      | .ok (value, flag) =>
        if instr.op = .ADD ∨ instr.op = .SUB ∨ instr.op = .MUL ∨ instr.op = .DIV then
          .ok { s1 with registers := regPut s1.registers instr.reg_target value
                        condition := flag }
        else if instr.op = .STORE then
          match s1.memory.put value (regGet s1.registers instr.reg_target) with
          | .error e => .error (e, s1)
          | .ok m => .ok { s1 with memory := m, condition := flag }
        else if instr.op = .LOAD then
          match s1.memory.get value with
          | .error e => .error (e, s1)
          | .ok g => .ok { s1 with registers := regPut s1.registers instr.reg_target g
                                   condition := flag }
        else if instr.op = .HALT then
          .ok { s1 with halted := true }
        else
          .ok s1
    else
      let prog1 := regGet s.registers 15
      .ok { s with registers := regPut s.registers 15 (prog1 + 1) }

/-- The loop body of `CPU.run`: repeatedly step until the halted flag is
set.  The source loop has no bound; `fuel` bounds the modelled iteration
count (running out of fuel returns the state reached so far).  The
`input()` pause of single-step mode is external and has no state effect. -/
def CPU.runLoop (fuel : Nat) (s : CPU) : Except (String × CPU) CPU :=
  if s.halted then .ok s
  else
    match fuel with
    | 0 => .ok s
    | fuel' + 1 =>
      match s.step with
      | .error e => .error e
      | .ok s' => CPU.runLoop fuel' s'

/-- `CPU.run` from the source: clear the halted flag, set the program
counter to the start address, then loop. -/
def CPU.run (s : CPU) (from_addr : Int) (fuel : Nat) : Except (String × CPU) CPU :=
  CPU.runLoop fuel { s with halted := false, registers := regPut s.registers 15 from_addr }

/-- A register file with every register holding 0 (the initial value of a
freshly constructed register). -/
def regs0 : RegFile := fun _ => 0

/-- Concrete state exercising STORE: the instruction at address 0 is
`STORE cond=ALWAYS target=r3 src1=r1 src2=r2 offset=0`; r1 holds 2, r2
holds 1, r3 holds 1, so the ALU computes 2 + (1 + 0) = 3 and the target
register holds address 1. -/
def exC1 : CPU :=
  { memory := ⟨[encode 2 15 3 1 2 0, 0, 0, 0, 0, 0, 0, 0]⟩
    registers := fun i => if i = 1 then 2 else if i = 2 then 1 else if i = 3 then 1 else 0
    condition := .ALWAYS
    halted := false }

/-- Concrete state exercising a predicated skip: the instruction's
condition mask is M (value 1) while the CPU's current flag is Z (value 2),
so the mask test fails. -/
def exC4 : CPU :=
  { memory := ⟨[encode 3 1 1 0 0 5]⟩
    registers := regs0
    condition := .Z
    halted := false }

/-- Concrete state exercising an ADD targeting the program counter:
`ADD cond=ALWAYS target=r15 src1=r1 src2=r0 offset=7` with r1 holding 41,
so the ALU computes 41 + (0 + 7) = 48. -/
def exC5 : CPU :=
  { memory := ⟨[encode 3 15 15 1 0 7]⟩
    registers := fun i => if i = 1 then 41 else 0
    condition := .ALWAYS
    halted := false }

/-- Concrete state with a HALT instruction (condition ALWAYS) at address 0. -/
def exC6 : CPU :=
  { memory := ⟨[encode 0 15 0 0 0 0]⟩
    registers := regs0
    condition := .ALWAYS
    halted := false }

/-- Concrete state with an unsupported operation code (9) at address 0. -/
def exC7 : CPU :=
  { memory := ⟨[encode 9 15 0 0 0 0]⟩
    registers := regs0
    condition := .ALWAYS
    halted := false }

/-- Concrete state with a HALT instruction at address 0 (for the
program-counter-after-halt property). -/
def exC8 : CPU :=
  { memory := ⟨[encode 0 15 0 0 0 0]⟩
    registers := regs0
    condition := .ALWAYS
    halted := false }

/-- Concrete state with an unsupported operation code (9) at address 0
(for the aborted-step mutation property). -/
def exC9 : CPU :=
  { memory := ⟨[encode 9 15 0 0 0 0]⟩
    registers := regs0
    condition := .ALWAYS
    halted := false }

/-- Concrete state exercising an arithmetic write to the zero register:
`SUB cond=ALWAYS target=r0 src1=r1 src2=r0 offset=0` with r1 holding 5,
so the ALU computes 5 - 0 = 5 with flag P. -/
def exC10 : CPU :=
  { memory := ⟨[encode 4 15 0 1 0 0]⟩
    registers := fun i => if i = 1 then 5 else 0
    condition := .ALWAYS
    halted := false }

deriving instance DecidableEq for Except

/-! ### Helper lemmas about registers, memory and the ALU -/

lemma regGet_zero (regs : RegFile) : regGet regs 0 = 0 := by
  simp [regGet]

lemma regPut_zero (regs : RegFile) (v : Int) : regPut regs 0 v = regs := by
  simp [regPut]

lemma regGet_regPut_self (regs : RegFile) (i : Fin 16) (v : Int) (h : i ≠ 0) :
    regGet (regPut regs i v) i = v := by
  simp [regGet, regPut, h, Function.update_apply]

lemma regGet_regPut_ne (regs : RegFile) (i j : Fin 16) (v : Int) (h : j ≠ i) :
    regGet (regPut regs i v) j = regGet regs j := by
  unfold regGet regPut
  by_cases hi : i = 0
  · simp [hi]
  · by_cases hj : j = 0 <;> simp [hi, hj, Function.update_apply, h]

lemma exec_add (x y : Int) :
    ALU.exec .ADD x y =
      .ok (x + y, if x + y = 0 then .Z else if x + y < 0 then .M else .P) := by
  simp only [ALU.exec, ALU_OPS]
  split_ifs <;> rfl

lemma exec_sub (x y : Int) :
    ALU.exec .SUB x y =
      .ok (x - y, if x - y = 0 then .Z else if x - y < 0 then .M else .P) := by
  simp only [ALU.exec, ALU_OPS]
  split_ifs <;> rfl

lemma exec_mul (x y : Int) :
    ALU.exec .MUL x y =
      .ok (x * y, if x * y = 0 then .Z else if x * y < 0 then .M else .P) := by
  simp only [ALU.exec, ALU_OPS]
  split_ifs <;> rfl

lemma exec_div (x y : Int) (h : y ≠ 0) :
    ALU.exec .DIV x y =
      .ok (x.fdiv y, if x.fdiv y = 0 then .Z else if x.fdiv y < 0 then .M else .P) := by
  simp only [ALU.exec, ALU_OPS, if_neg h]
  split_ifs <;> rfl

lemma exec_load (x y : Int) :
    ALU.exec .LOAD x y =
      .ok (x + y, if x + y = 0 then .Z else if x + y < 0 then .M else .P) := by
  simp only [ALU.exec, ALU_OPS]
  split_ifs <;> rfl

lemma exec_store (x y : Int) :
    ALU.exec .STORE x y =
      .ok (x + y, if x + y = 0 then .Z else if x + y < 0 then .M else .P) := by
  simp only [ALU.exec, ALU_OPS]
  split_ifs <;> rfl

lemma exec_halt (x y : Int) : ALU.exec .HALT x y = .ok (0, .Z) := by
  simp [ALU.exec, ALU_OPS]

lemma Memory.put_ok (m : Memory) (v a : Int) (h : 0 ≤ a ∧ a.toNat < m.data.length) :
    m.put v a = .ok ⟨m.data.set a.toNat v⟩ := by
  unfold Memory.put
  rw [if_pos h]

lemma Memory.get_set_self (m : Memory) (v a : Int) (h : 0 ≤ a ∧ a.toNat < m.data.length) :
    (Memory.mk (m.data.set a.toNat v)).get a = .ok v := by
  unfold Memory.get
  rw [dif_pos (by simpa using h)]
  simp

lemma exec_arith_ok (op : OpCode) (x y : Int)
    (hop : op = .ADD ∨ op = .SUB ∨ op = .MUL ∨ op = .DIV) :
    ∃ v f, ALU.exec op x y = .ok (v, f) := by
  rcases hop with h | h | h | h <;> subst h
  · exact ⟨_, _, exec_add x y⟩
  · exact ⟨_, _, exec_sub x y⟩
  · exact ⟨_, _, exec_mul x y⟩
  · by_cases hy : y = 0
    · subst hy
      exact ⟨0, .V, by simp [ALU.exec, ALU_OPS]⟩
    · exact ⟨_, _, exec_div x y hy⟩

/-! ### The claims -/

/-- C2: for every integer operand `x`, invoking the ALU with operation
DIV, first operand `x` and second operand 0 returns result 0 with
condition flag V, and never raises or propagates a fatal error (the
result is an ordinary `Except.ok`). -/
theorem alu_div_by_zero (x : Int) : ALU.exec .DIV x 0 = .ok (0, .V) := by
  simp [ALU.exec, ALU_OPS]

/-- C3: for every operation code in {ADD, SUB, MUL, DIV, LOAD, STORE} and
all integer operands for which the operation succeeds (for DIV, a nonzero
divisor), `ALU.exec` returns a result `r` and flag `f` such that `f = Z`
iff `r = 0`, `f = M` iff `r < 0`, and `f = P` iff `r > 0`; the three
cases are mutually exclusive and exhaustive by integer trichotomy. -/
theorem alu_flag_sign (op : OpCode) (x y : Int)
    (hop : op = .ADD ∨ op = .SUB ∨ op = .MUL ∨ op = .DIV ∨ op = .LOAD ∨ op = .STORE)
    (hdiv : op = .DIV → y ≠ 0) :
    ∃ r f, ALU.exec op x y = .ok (r, f) ∧
      (f = .Z ↔ r = 0) ∧ (f = .M ↔ r < 0) ∧ (f = .P ↔ 0 < r) := by
  have key : ∀ r : Int,
      ((if r = 0 then CondFlag.Z else if r < 0 then CondFlag.M else CondFlag.P) = .Z ↔ r = 0) ∧
      ((if r = 0 then CondFlag.Z else if r < 0 then CondFlag.M else CondFlag.P) = .M ↔ r < 0) ∧
      ((if r = 0 then CondFlag.Z else if r < 0 then CondFlag.M else CondFlag.P) = .P ↔ 0 < r) := by
    intro r
    split_ifs with h1 h2 <;> refine ⟨?_, ?_, ?_⟩ <;> simp <;> omega
  rcases hop with h | h | h | h | h | h <;> subst h
  · exact ⟨_, _, exec_add x y, key (x + y)⟩
  · exact ⟨_, _, exec_sub x y, key (x - y)⟩
  · exact ⟨_, _, exec_mul x y, key (x * y)⟩
  · exact ⟨_, _, exec_div x y (hdiv rfl), key (x.fdiv y)⟩
  · exact ⟨_, _, exec_load x y, key (x + y)⟩
  · exact ⟨_, _, exec_store x y, key (x + y)⟩

/-- Witness for C3: instantiated at ADD with operands 1 and 2. -/
theorem alu_flag_sign_witness :
    ∃ r f, ALU.exec .ADD 1 2 = .ok (r, f) ∧
      (f = .Z ↔ r = 0) ∧ (f = .M ↔ r < 0) ∧ (f = .P ↔ 0 < r) :=
  alu_flag_sign .ADD 1 2 (Or.inl rfl) (by decide)

/-- C1 (amended): for a STORE instruction executed under a satisfied
condition, the ALU computes `value = reg_src1 contents + (reg_src2
contents + offset)`, and that computed `value` is written into memory at
the address held in the target register (the target register supplies the
destination address via its current content — read after the
program-counter increment — and the ALU result is the stored value); the
condition flag is then set from the sign of the computed value. -/
theorem step_store (s : CPU) (w : Int)
    (hfetch : s.memory.get (regGet s.registers 15) = .ok w)
    (hop : (decode w).op = .STORE)
    (hcond : (decode w).cond &&& s.condition.value > 0)
    (value dest : Int)
    (hval : value = regGet s.registers (decode w).reg_src1 +
      (regGet s.registers (decode w).reg_src2 + (decode w).offset))
    (hdest : dest = regGet (regPut s.registers 15 (regGet s.registers 15 + 1)) (decode w).reg_target)
    (hbound : 0 ≤ dest ∧ dest.toNat < s.memory.data.length) :
    ∃ s', s.step = .ok s' ∧
      s'.memory.get dest = .ok value ∧
      s'.condition = (if value = 0 then CondFlag.Z else if value < 0 then CondFlag.M else CondFlag.P) ∧
      s'.registers = regPut s.registers 15 (regGet s.registers 15 + 1) ∧
      s'.halted = s.halted := by
  refine ⟨{ s with
      memory := ⟨s.memory.data.set dest.toNat value⟩
      registers := regPut s.registers 15 (regGet s.registers 15 + 1)
      condition := if value = 0 then .Z else if value < 0 then .M else .P },
    ?_, ?_, rfl, rfl, rfl⟩
  · simp only [CPU.step, hfetch]
    have hexec := exec_store (regGet s.registers (decode w).reg_src1)
      (regGet s.registers (decode w).reg_src2 + (decode w).offset)
    rw [← hval] at hexec
    have hput : Memory.put s.memory value dest = .ok ⟨s.memory.data.set dest.toNat value⟩ :=
      Memory.put_ok _ _ _ hbound
    simp [hcond, hop, hexec, ← hdest, hput]
  · exact Memory.get_set_self _ _ _ hbound

/-- Witness for C1: in `exC1`, the STORE computes value 2 + (1 + 0) = 3
and stores it at address 1, the content of target register r3. -/
theorem step_store_witness :
    ∃ s', exC1.step = .ok s' ∧
      s'.memory.get 1 = .ok 3 ∧
      s'.condition = (if (3 : Int) = 0 then CondFlag.Z else if (3 : Int) < 0 then CondFlag.M else CondFlag.P) ∧
      s'.registers = regPut exC1.registers 15 (regGet exC1.registers 15 + 1) ∧
      s'.halted = exC1.halted :=
  step_store exC1 (encode 2 15 3 1 2 0) (by decide) (by decide) (by decide) 3 1
    (by decide) (by decide) (by decide)

/-- Counterexample for C1 as stated: in `exC1` the STORE instruction runs
under a satisfied condition, the ALU computes address value 3, and the
target register's prior content is 1 — yet after the step, memory at the
computed address 3 still holds 0, not the target register's value.  (The
value 3 was instead stored at address 1, the content of the target
register.) -/
theorem step_store_counterexample :
    (decode (encode 2 15 3 1 2 0)).op = .STORE ∧
    (decode (encode 2 15 3 1 2 0)).cond &&& exC1.condition.value > 0 ∧
    regGet exC1.registers (decode (encode 2 15 3 1 2 0)).reg_src1 +
      (regGet exC1.registers (decode (encode 2 15 3 1 2 0)).reg_src2 +
        (decode (encode 2 15 3 1 2 0)).offset) = 3 ∧
    regGet exC1.registers (decode (encode 2 15 3 1 2 0)).reg_target = 1 ∧
    exC1.step.toOption.map (fun s' => s'.memory.get 3) = some (.ok 0) ∧
    (0 : Int) ≠ 1 := by
  decide

/-- C4: whenever the fetched instruction's condition mask ANDed with the
CPU's current condition flag equals 0, `step` skips the instruction: it
increments the program counter (register 15) by exactly 1 and leaves
every other register, all of memory, the condition flag, and the halted
flag unchanged. -/
theorem step_skip (s : CPU) (w : Int)
    (hfetch : s.memory.get (regGet s.registers 15) = .ok w)
    (hcond : (decode w).cond &&& s.condition.value = 0) :
    ∃ s', s.step = .ok s' ∧
      regGet s'.registers 15 = regGet s.registers 15 + 1 ∧
      (∀ i : Fin 16, i ≠ 15 → regGet s'.registers i = regGet s.registers i) ∧
      s'.memory = s.memory ∧ s'.condition = s.condition ∧ s'.halted = s.halted := by
  have hngt : ¬((decode w).cond &&& s.condition.value > 0) := by omega
  refine ⟨{ s with registers := regPut s.registers 15 (regGet s.registers 15 + 1) },
    ?_, ?_, ?_, rfl, rfl, rfl⟩
  · simp only [CPU.step, hfetch]
    simp [hngt]
  · exact regGet_regPut_self _ _ _ (by decide)
  · intro i hi
    exact regGet_regPut_ne _ _ _ _ hi

/-- Witness for C4: in `exC4` the instruction's condition mask is M
(value 1) while the current flag is Z (value 2), so the step skips. -/
theorem step_skip_witness :
    ∃ s', exC4.step = .ok s' ∧
      regGet s'.registers 15 = regGet exC4.registers 15 + 1 ∧
      (∀ i : Fin 16, i ≠ 15 → regGet s'.registers i = regGet exC4.registers i) ∧
      s'.memory = exC4.memory ∧ s'.condition = exC4.condition ∧ s'.halted = exC4.halted :=
  step_skip exC4 (encode 3 1 1 0 0 5) (by decide) (by decide)

/-- C5: in a non-skipped step, the program counter is incremented by 1
before the ALU is invoked, so an ADD/SUB/MUL/DIV instruction whose target
register is register 15 leaves the program counter equal to the ALU
result — the target-register write overrides the auto-increment. -/
theorem step_arith_pc_target (s : CPU) (w : Int)
    (hfetch : s.memory.get (regGet s.registers 15) = .ok w)
    (hop : (decode w).op = .ADD ∨ (decode w).op = .SUB ∨ (decode w).op = .MUL ∨
      (decode w).op = .DIV)
    (htgt : (decode w).reg_target = 15)
    (hcond : (decode w).cond &&& s.condition.value > 0) :
    ∃ value flag,
      ALU.exec (decode w).op (regGet s.registers (decode w).reg_src1)
        (regGet s.registers (decode w).reg_src2 + (decode w).offset) = .ok (value, flag) ∧
      ∃ s', s.step = .ok s' ∧ regGet s'.registers 15 = value := by
  obtain ⟨v, f, hexec⟩ := exec_arith_ok (decode w).op _ _ hop
  refine ⟨v, f, hexec, { s with
      registers := regPut (regPut s.registers 15 (regGet s.registers 15 + 1)) (decode w).reg_target v
      condition := f }, ?_, ?_⟩
  · simp only [CPU.step, hfetch]
    rcases hop with h | h | h | h <;> rw [h] at hexec <;> simp [hcond, h, hexec]
  · rw [htgt]
    exact regGet_regPut_self _ _ _ (by decide)

/-- Witness for C5: in `exC5`, the ADD targeting register 15 computes
41 + (0 + 7) = 48 and the program counter ends up 48, not 1. -/
theorem step_arith_pc_target_witness :
    ∃ value flag,
      ALU.exec (decode (encode 3 15 15 1 0 7)).op
        (regGet exC5.registers (decode (encode 3 15 15 1 0 7)).reg_src1)
        (regGet exC5.registers (decode (encode 3 15 15 1 0 7)).reg_src2 +
          (decode (encode 3 15 15 1 0 7)).offset) = .ok (value, flag) ∧
      ∃ s', exC5.step = .ok s' ∧ regGet s'.registers 15 = value :=
  step_arith_pc_target exC5 (encode 3 15 15 1 0 7) (by decide) (by decide) (by decide)
    (by decide)

/-- C6 (amended): executing a HALT instruction under a satisfied
condition sets the halted flag to true and leaves all registers except
the program counter (which is incremented by 1), all of memory, and the
condition flag otherwise unchanged; `run` terminates immediately after
that step — once the resulting state is halted, the run loop returns it
without invoking `step` again. -/
theorem step_halt (s : CPU) (w : Int)
    (hfetch : s.memory.get (regGet s.registers 15) = .ok w)
    (hop : (decode w).op = .HALT)
    (hcond : (decode w).cond &&& s.condition.value > 0) :
    ∃ s', s.step = .ok s' ∧ s'.halted = true ∧ s'.memory = s.memory ∧
      s'.condition = s.condition ∧
      regGet s'.registers 15 = regGet s.registers 15 + 1 ∧
      (∀ i : Fin 16, i ≠ 15 → regGet s'.registers i = regGet s.registers i) ∧
      (∀ fuel, CPU.runLoop fuel s' = .ok s') := by
  refine ⟨{ s with registers := regPut s.registers 15 (regGet s.registers 15 + 1), halted := true },
    ?_, rfl, rfl, rfl, regGet_regPut_self _ _ _ (by decide),
    fun i hi => regGet_regPut_ne _ _ _ _ hi, ?_⟩
  · simp only [CPU.step, hfetch]
    simp [hcond, hop, exec_halt]
  · intro fuel
    cases fuel <;> simp [CPU.runLoop]

/-- Witness for C6: instantiated at `exC6`, whose instruction at address
0 is a HALT with condition mask ALWAYS. -/
theorem step_halt_witness :
    ∃ s', exC6.step = .ok s' ∧ s'.halted = true ∧ s'.memory = exC6.memory ∧
      s'.condition = exC6.condition ∧
      regGet s'.registers 15 = regGet exC6.registers 15 + 1 ∧
      (∀ i : Fin 16, i ≠ 15 → regGet s'.registers i = regGet exC6.registers i) ∧
      (∀ fuel, CPU.runLoop fuel s' = .ok s') :=
  step_halt exC6 (encode 0 15 0 0 0 0) (by decide) (by decide) (by decide)

/-- Counterexample for C6 as stated: in `exC6` a HALT executes under a
satisfied condition, and register 15 changes from 0 to 1 — so the claim
that all registers are left unchanged is false (the program counter is
incremented). -/
theorem step_halt_counterexample :
    (decode (encode 0 15 0 0 0 0)).op = .HALT ∧
    (decode (encode 0 15 0 0 0 0)).cond &&& exC6.condition.value > 0 ∧
    exC6.step.toOption.map (fun s' => (s'.halted, regGet s'.registers 15)) = some (true, 1) ∧
    regGet exC6.registers 15 = 0 := by
  decide

/-- C7: for every operation code not present in the ALU's dispatch table,
invoking the ALU returns an "unsupported operation" error, and executing
such an instruction via `step` under a satisfied condition surfaces that
error to the caller rather than silently no-oping or substituting a
default operation; the run loop stops with the same error. -/
theorem step_unsupported (s : CPU) (w : Int)
    (hfetch : s.memory.get (regGet s.registers 15) = .ok w)
    (hop : ALU_OPS (decode w).op = none)
    (hcond : (decode w).cond &&& s.condition.value > 0) :
    (∀ x y, ALU.exec (decode w).op x y = .error "unsupported operation") ∧
    s.step = .error ("unsupported operation",
      { s with registers := regPut s.registers 15 (regGet s.registers 15 + 1) }) ∧
    ∀ fuel, s.halted = false → CPU.runLoop (fuel + 1) s = .error ("unsupported operation",
      { s with registers := regPut s.registers 15 (regGet s.registers 15 + 1) }) := by
  have hexec : ∀ x y, ALU.exec (decode w).op x y = .error "unsupported operation" := by
    intro x y
    simp [ALU.exec, hop]
  have hstep : s.step = .error ("unsupported operation",
      { s with registers := regPut s.registers 15 (regGet s.registers 15 + 1) }) := by
    simp only [CPU.step, hfetch]
    simp [hcond, hexec]
  exact ⟨hexec, hstep, fun fuel hh => by simp [CPU.runLoop, hh, hstep]⟩

/-- Witness for C7: instantiated at `exC7`, whose instruction at address
0 carries the unsupported operation code 9. -/
theorem step_unsupported_witness :
    (∀ x y, ALU.exec (decode (encode 9 15 0 0 0 0)).op x y = .error "unsupported operation") ∧
    exC7.step = .error ("unsupported operation",
      { exC7 with registers := regPut exC7.registers 15 (regGet exC7.registers 15 + 1) }) ∧
    ∀ fuel, exC7.halted = false → CPU.runLoop (fuel + 1) exC7 = .error ("unsupported operation",
      { exC7 with registers := regPut exC7.registers 15 (regGet exC7.registers 15 + 1) }) :=
  step_unsupported exC7 (encode 9 15 0 0 0 0) (by decide) rfl (by decide)

/-- C8: executing a HALT instruction under a satisfied condition still
increments the program counter by 1 before halting, so after the run
loop terminates via that HALT, register 15 holds the HALT instruction's
address plus 1. -/
theorem step_halt_pc (s : CPU) (w : Int)
    (hfetch : s.memory.get (regGet s.registers 15) = .ok w)
    (hop : (decode w).op = .HALT)
    (hcond : (decode w).cond &&& s.condition.value > 0)
    (hrun : s.halted = false) :
    ∃ s', s.step = .ok s' ∧ s'.halted = true ∧
      regGet s'.registers 15 = regGet s.registers 15 + 1 ∧
      ∀ fuel, CPU.runLoop (fuel + 1) s = .ok s' := by
  have hstep : s.step = .ok { s with
      registers := regPut s.registers 15 (regGet s.registers 15 + 1), halted := true } := by
    simp only [CPU.step, hfetch]
    simp [hcond, hop, exec_halt]
  refine ⟨_, hstep, rfl, regGet_regPut_self _ _ _ (by decide), fun fuel => ?_⟩
  simp only [CPU.runLoop, hrun, hstep]
  cases fuel <;> simp [CPU.runLoop]

/-- Witness for C8: instantiated at `exC8`, where the HALT sits at
address 0 and the final program counter is 1. -/
theorem step_halt_pc_witness :
    ∃ s', exC8.step = .ok s' ∧ s'.halted = true ∧
      regGet s'.registers 15 = regGet exC8.registers 15 + 1 ∧
      ∀ fuel, CPU.runLoop (fuel + 1) exC8 = .ok s' :=
  step_halt_pc exC8 (encode 0 15 0 0 0 0) (by decide) (by decide) (by decide) rfl

/-- C9: when `step` aborts with a fatal error on an unsupported operation
code under a satisfied condition, the program counter has already been
incremented by 1 before the error is raised, so the aborted step leaves
the CPU state mutated — the program counter differs from its value at
fetch time. -/
theorem step_unsupported_mutates (s : CPU) (w : Int)
    (hfetch : s.memory.get (regGet s.registers 15) = .ok w)
    (hop : ALU_OPS (decode w).op = none)
    (hcond : (decode w).cond &&& s.condition.value > 0) :
    ∃ e s', s.step = .error (e, s') ∧
      regGet s'.registers 15 = regGet s.registers 15 + 1 ∧
      regGet s'.registers 15 ≠ regGet s.registers 15 := by
  have hexec : ∀ x y, ALU.exec (decode w).op x y = .error "unsupported operation" := by
    intro x y
    simp [ALU.exec, hop]
  refine ⟨"unsupported operation",
    { s with registers := regPut s.registers 15 (regGet s.registers 15 + 1) }, ?_, ?_, ?_⟩
  · simp only [CPU.step, hfetch]
    simp [hcond, hexec]
  · exact regGet_regPut_self _ _ _ (by decide)
  · rw [regGet_regPut_self _ _ _ (by decide)]
    omega

/-- Witness for C9: instantiated at `exC9` (unsupported operation code 9
at address 0). -/
theorem step_unsupported_mutates_witness :
    ∃ e s', exC9.step = .error (e, s') ∧
      regGet s'.registers 15 = regGet exC9.registers 15 + 1 ∧
      regGet s'.registers 15 ≠ regGet exC9.registers 15 :=
  step_unsupported_mutates exC9 (encode 9 15 0 0 0 0) (by decide) rfl (by decide)

/-- C10: for an ADD, SUB, MUL or DIV instruction executed under a
satisfied condition whose target register index is 0 (the zero register),
the written value is discarded — the register file after the step is just
the program-counter-incremented file, and register 0 still reads as 0 —
but the condition flag is nevertheless updated from the ALU result. -/
theorem step_arith_zero_target (s : CPU) (w : Int)
    (hfetch : s.memory.get (regGet s.registers 15) = .ok w)
    (hop : (decode w).op = .ADD ∨ (decode w).op = .SUB ∨ (decode w).op = .MUL ∨
      (decode w).op = .DIV)
    (htgt : (decode w).reg_target = 0)
    (hcond : (decode w).cond &&& s.condition.value > 0) :
    ∃ value flag,
      ALU.exec (decode w).op (regGet s.registers (decode w).reg_src1)
        (regGet s.registers (decode w).reg_src2 + (decode w).offset) = .ok (value, flag) ∧
      s.step = .ok { s with
        registers := regPut s.registers 15 (regGet s.registers 15 + 1), condition := flag } ∧
      regGet (regPut s.registers 15 (regGet s.registers 15 + 1)) 0 = 0 := by
  obtain ⟨v, f, hexec⟩ := exec_arith_ok _ _ _ hop
  refine ⟨v, f, hexec, ?_, regGet_zero _⟩
  simp only [CPU.step, hfetch]
  rcases hop with h | h | h | h <;> rw [h] at hexec <;> simp [hcond, h, hexec, htgt, regPut_zero]

/-- Witness for C10: in `exC10`, the SUB computes 5 - 0 = 5, the write to
register 0 is discarded, and the condition flag becomes P. -/
theorem step_arith_zero_target_witness :
    ∃ value flag,
      ALU.exec (decode (encode 4 15 0 1 0 0)).op
        (regGet exC10.registers (decode (encode 4 15 0 1 0 0)).reg_src1)
        (regGet exC10.registers (decode (encode 4 15 0 1 0 0)).reg_src2 +
          (decode (encode 4 15 0 1 0 0)).offset) = .ok (value, flag) ∧
      exC10.step = .ok { exC10 with
        registers := regPut exC10.registers 15 (regGet exC10.registers 15 + 1), condition := flag } ∧
      regGet (regPut exC10.registers 15 (regGet exC10.registers 15 + 1)) 0 = 0 :=
  step_arith_zero_target exC10 (encode 4 15 0 1 0 0) (by decide) (by decide) (by decide)
    (by decide)
